import Mathlib

/-!
Shallow embedding of the GraphQL resolver set of the family-expense-tracker
backend (the two structurally identical resolver files agree on every operation
modelled here; the embedding follows the later, fully commented variant).

The resolvers are async JavaScript functions over a PostgreSQL pool plus one
in-memory message list.  They are modelled as pure functions over an explicit
`Store` state; a resolver that reads the wall clock (`Date.now()`) takes the
current tick as an explicit `now : ℕ` argument.  Errors thrown with
`throw new Error(...)` become `Except.error` with the matching `Err`
constructor.
-/

namespace FamilyExpense

/-- Values as they appear in resolver results for the `amount` field.  `num q` is a
JavaScript number with rational value `q`; `dec q` is the driver's representation
of a stored `numeric` column value (a decimal string carrying the value `q`).
Modelled from the spec: the data-store gateway (`db.ts`, not among the resolver
sources) returns rows whose stored numeric/decimal column values must be coerced
to the API's numeric type, and that coercion is lossless (the source's own
comments note the PostgreSQL-numeric-to-JS-number conversion). -/
inductive JSVal where
  | num (q : ℚ)
  | dec (q : ℚ)
deriving DecidableEq, Repr

/-- JavaScript `Number(...)` applied to a driver value: a decimal string parses to
the JS number of the same rational value; a JS number is returned unchanged. -/
def jsNumber : JSVal → JSVal
  | JSVal.num q => JSVal.num q
  | JSVal.dec q => JSVal.num q

/-- GraphQL `Float` serialization of an `amount` field (the schema declares
`amount: Float!`): both a JS number and a decimal string are coerced to the
number they denote before being written to the wire. -/
def serializeFloat : JSVal → ℚ
  | JSVal.num q => q
  | JSVal.dec q => q

/-- Row of the `users` table (`id, name, created_at`). -/
structure UserRow where
  id : String
  name : String
  created_at : ℕ
deriving DecidableEq, Repr

/-- Row of the `expenses` table (`id, name, amount, description, user_id,
created_at`); `amount` holds the stored numeric value. -/
structure ExpenseRow where
  id : String
  name : String
  amount : ℚ
  description : String
  user_id : String
  created_at : ℕ
deriving DecidableEq, Repr

/-- In-memory message entity `{id, text}`. -/
structure Message where
  id : String
  text : String
deriving DecidableEq, Repr

/-- Observable state of the service: the two relational tables plus the
process-local message list. -/
structure Store where
  users : List UserRow
  expenses : List ExpenseRow
  messages : List Message
deriving DecidableEq, Repr

/-- Resolver-level Expense object (camelCase fields); the `amount` field is
whatever JS value the resolver put there. -/
structure ExpenseOut where
  id : String
  name : String
  amount : JSVal
  description : String
  userId : String
deriving DecidableEq, Repr

/-- Resolver-level User object. -/
structure UserOut where
  id : String
  name : String
deriving DecidableEq, Repr

/-- Wire-level Expense as a GraphQL client observes it after `Float`
serialization of the `amount` field. -/
structure ExpenseWire where
  id : String
  name : String
  amount : ℚ
  description : String
  userId : String
deriving DecidableEq, Repr

/-- Serialization of a resolver-level Expense at the schema types
(`ID!`, `String!`, `Float!`). -/
def serializeExpense (e : ExpenseOut) : ExpenseWire :=
  { id := e.id, name := e.name, amount := serializeFloat e.amount,
    description := e.description, userId := e.userId }

/-- Domain errors thrown by the resolvers, in the spec's naming:
"User does not exist" = `UserNotFound`, "Amount must be greater than 0" =
`InvalidAmount`, "Description must be at least 3 characters long" =
`InvalidDescription`, "Expense not found" = `ExpenseNotFound`. -/
inductive Err where
  | UserNotFound
  | InvalidAmount
  | InvalidDescription
  | ExpenseNotFound
deriving DecidableEq, Repr

instance {ε α : Type} [DecidableEq ε] [DecidableEq α] :
    DecidableEq (Except ε α) := fun x y =>
  match x, y with
  | Except.ok a, Except.ok b =>
    if h : a = b then isTrue (congrArg Except.ok h)
    else isFalse (fun hxy => h (Except.ok.inj hxy))
  | Except.error a, Except.error b =>
    if h : a = b then isTrue (congrArg Except.error h)
    else isFalse (fun hxy => h (Except.error.inj hxy))
  | Except.ok _, Except.error _ => isFalse (fun hxy => Except.noConfusion hxy)
  | Except.error _, Except.ok _ => isFalse (fun hxy => Except.noConfusion hxy)

/-- The `AddExpenseInput` payload. -/
structure AddExpenseInput where
  name : String
  amount : ℚ
  description : String
  userId : String
deriving DecidableEq, Repr

/-- JavaScript `String.prototype.trim()`: strip leading and trailing
whitespace.  Implemented over the character list so that it evaluates by
kernel reduction. -/
def jsTrim (s : String) : String :=
  (((s.data.dropWhile Char.isWhitespace).reverse.dropWhile
      Char.isWhitespace).reverse).asString

/-- Mapping used by `addExpense` and `expenses`: field renaming
(`user_id` to `userId`), the amount taken raw from the driver row, without
`Number(...)`. -/
def rowToExpenseRaw (r : ExpenseRow) : ExpenseOut :=
  { id := r.id, name := r.name, amount := JSVal.dec r.amount,
    description := r.description, userId := r.user_id }

/-- Mapping used by `expensesByUser` and `updateExpense`: field renaming with
`Number(r.amount)` applied to the amount. -/
def rowToExpenseNum (r : ExpenseRow) : ExpenseOut :=
  { id := r.id, name := r.name, amount := jsNumber (JSVal.dec r.amount),
    description := r.description, userId := r.user_id }

/-- The addExpense resolver.  Step 1: `SELECT id FROM users WHERE id = $1` and
fail when `u.rows.length === 0`; step 2: fail when `input.amount <= 0`; step 3:
fail when `input.description.trim().length < 3`; otherwise insert the row with
id `Date.now().toString()` (the store fills `created_at` with the creation
time) and return the inserted row mapped without numeric coercion.  The result
pairs the resolver's answer with the store after the call. -/
def addExpense (now : ℕ) (input : AddExpenseInput) (s : Store) :
    Except Err ExpenseOut × Store :=
  if (s.users.filter (fun u => u.id = input.userId)).length = 0 then
    (Except.error Err.UserNotFound, s)
  else if input.amount ≤ 0 then
    (Except.error Err.InvalidAmount, s)
  else if (jsTrim input.description).length < 3 then
    (Except.error Err.InvalidDescription, s)
  else
    let row : ExpenseRow :=
      { id := Nat.repr now, name := input.name, amount := input.amount,
        description := input.description, user_id := input.userId,
        created_at := now }
    (Except.ok (rowToExpenseRaw row), { s with expenses := s.expenses ++ [row] })

/-- The expenses resolver: `SELECT * FROM expenses`, each row renamed, the
amount raw (no `Number(...)`). -/
def expenses (s : Store) : List ExpenseOut :=
  s.expenses.map rowToExpenseRaw

/-- The totalExpense resolver:
`Number(...)` of `SELECT COALESCE(SUM(amount), 0) AS total FROM expenses`. -/
def totalExpense (s : Store) : JSVal :=
  jsNumber (JSVal.dec ((s.expenses.map ExpenseRow.amount).sum))

/-- The addMessage resolver: append `{id: Date.now().toString(), text}` to the
in-memory list and return it. -/
def addMessage (now : ℕ) (text : String) (s : Store) : Message × Store :=
  ({ id := Nat.repr now, text := text },
   { s with messages := s.messages ++ [{ id := Nat.repr now, text := text }] })

/-- The messages resolver: the current in-memory list, insertion order. -/
def messages (s : Store) : List Message :=
  s.messages

/-- The addUser resolver: insert `{id: Date.now().toString(), name}` (the store
fills `created_at`) and return the created user. -/
def addUser (now : ℕ) (name : String) (s : Store) : UserOut × Store :=
  ({ id := Nat.repr now, name := name },
   { s with users := s.users ++ [{ id := Nat.repr now, name := name,
                                   created_at := now }] })

/-- Newest-first ordering on expense rows, the `ORDER BY created_at DESC` of the
per-user listing. -/
def newestFirst (a b : ExpenseRow) : Prop :=
  b.created_at ≤ a.created_at

instance : DecidableRel newestFirst :=
  fun a b => Nat.decLe b.created_at a.created_at

instance : IsTotal ExpenseRow newestFirst :=
  ⟨fun a b => Nat.le_total b.created_at a.created_at⟩

instance : IsTrans ExpenseRow newestFirst :=
  ⟨fun _ _ _ hab hbc => Nat.le_trans hbc hab⟩

/-- The expensesByUser resolver: rows with `user_id = $1`, ordered
`created_at DESC` (modelled as an insertion sort by `newestFirst`), each row
mapped with `Number(r.amount)`. -/
def expensesByUser (userId : String) (s : Store) : List ExpenseOut :=
  (List.insertionSort newestFirst
    (s.expenses.filter (fun r => r.user_id = userId))).map rowToExpenseNum

/-- The deleteExpense resolver: `DELETE FROM expenses WHERE id = $1`, returning
`rowCount > 0`. -/
def deleteExpense (id : String) (s : Store) : Bool × Store :=
  let remaining := s.expenses.filter (fun r => ¬ r.id = id)
  (decide (remaining.length < s.expenses.length), { s with expenses := remaining })

/-- The updateExpense resolver: `UPDATE expenses SET amount = $2, description =
$3 WHERE id = $1 RETURNING *` (executed unconditionally, with no re-validation
of the new values); when no row is returned, "Expense not found"; otherwise the
first returned row is mapped with `Number(...)`. -/
def updateExpense (id : String) (amount : ℚ) (description : String) (s : Store) :
    Except Err ExpenseOut × Store :=
  let updated := s.expenses.map (fun r =>
    if r.id = id then { r with amount := amount, description := description } else r)
  match updated.filter (fun r => r.id = id) with
  | [] => (Except.error Err.ExpenseNotFound, { s with expenses := updated })
  | r :: _ => (Except.ok (rowToExpenseNum r), { s with expenses := updated })

/-- Empty store, the state at process start. -/
def emptyStore : Store :=
  { users := [], expenses := [], messages := [] }

/-- Concrete user for witnesses. -/
def user1 : UserRow :=
  { id := "u1", name := "Alice", created_at := 1 }

/-- Concrete expense row for witnesses. -/
def exp1 : ExpenseRow :=
  { id := "7", name := "lunch", amount := 100, description := "food",
    user_id := "u1", created_at := 2 }

/-- Concrete store holding `user1` and `exp1`. -/
def store1 : Store :=
  { users := [user1], expenses := [exp1], messages := [] }

/-- C2: createExpense (the addExpense resolver) checks V1 (user exists), V2
(amount strictly positive) and V3 (trimmed description length at least 3) in
that order; the first violated rule determines the reported error and the store
is left unchanged, so a missing user is reported as UserNotFound even when the
amount and the description are also invalid. -/
theorem addExpense_validation_order (now : ℕ) (input : AddExpenseInput) (s : Store) :
    ((∀ u ∈ s.users, u.id ≠ input.userId) →
      addExpense now input s = (Except.error Err.UserNotFound, s)) ∧
    ((∃ u ∈ s.users, u.id = input.userId) → input.amount ≤ 0 →
      addExpense now input s = (Except.error Err.InvalidAmount, s)) ∧
    ((∃ u ∈ s.users, u.id = input.userId) → 0 < input.amount →
      (jsTrim input.description).length < 3 →
      addExpense now input s = (Except.error Err.InvalidDescription, s)) := by
  refine ⟨?_, ?_, ?_⟩
  · intro h
    have hf : s.users.filter (fun u => u.id = input.userId) = [] := by
      rw [List.filter_eq_nil_iff]
      intro u hu
      simpa using h u hu
    simp [addExpense, hf]
  · rintro ⟨u, hu, hid⟩ hamt
    have hne : (s.users.filter (fun v => v.id = input.userId)).length ≠ 0 := by
      intro h0
      rw [List.length_eq_zero, List.filter_eq_nil_iff] at h0
      exact h0 u hu (by simpa using hid)
    simp [addExpense, hne, hamt]
  · rintro ⟨u, hu, hid⟩ hpos hdesc
    have hne : (s.users.filter (fun v => v.id = input.userId)).length ≠ 0 := by
      intro h0
      rw [List.length_eq_zero, List.filter_eq_nil_iff] at h0
      exact h0 u hu (by simpa using hid)
    have hamt : ¬ input.amount ≤ 0 := not_le.mpr hpos
    simp [addExpense, hne, hamt, hdesc]

/-- Witness for C2: the spec's own example, a missing user id together with a
negative amount and a one-character description is reported as UserNotFound. -/
theorem addExpense_validation_order_witness :
    addExpense 9 { name := "n", amount := -5, description := "x",
                   userId := "missing" } store1
      = (Except.error Err.UserNotFound, store1) :=
  (addExpense_validation_order 9
    { name := "n", amount := -5, description := "x", userId := "missing" }
    store1).1 (by decide)

/-- C3: updateExpense on an id that matches no stored expense fails with
ExpenseNotFound and returns the store unchanged. -/
theorem updateExpense_missing_id (s : Store) (i : String) (amt : ℚ) (d : String)
    (h : ∀ r ∈ s.expenses, r.id ≠ i) :
    updateExpense i amt d s = (Except.error Err.ExpenseNotFound, s) := by
  have hmap : s.expenses.map (fun r =>
      if r.id = i then { r with amount := amt, description := d } else r)
      = s.expenses := by
    conv_rhs => rw [← List.map_id s.expenses]
    apply List.map_congr_left
    intro r hr
    simp [h r hr]
  have hfil : s.expenses.filter (fun r => r.id = i) = [] := by
    rw [List.filter_eq_nil_iff]
    intro r hr
    simpa using h r hr
  simp [updateExpense, hmap, hfil]

/-- Witness for C3 at the unused id "9" on a store holding only expense "7". -/
theorem updateExpense_missing_id_witness :
    updateExpense ("9") 5 ("abc") store1 = (Except.error Err.ExpenseNotFound, store1) :=
  updateExpense_missing_id store1 ("9") 5 ("abc") (by decide)

/-- C4: deleteExpense returns true and removes the row carrying the id when one
exists, returns false (a successful boolean, no error) leaving the store
unchanged when none does, and called a second time on the same id returns false
and changes nothing further. -/
theorem deleteExpense_contract (s : Store) (i : String) :
    ((∀ r ∈ s.expenses, r.id ≠ i) → deleteExpense i s = (false, s)) ∧
    ((∃ r ∈ s.expenses, r.id = i) →
      (deleteExpense i s).1 = true ∧
      (deleteExpense i s).2 =
        { s with expenses := s.expenses.filter (fun r => ¬ r.id = i) } ∧
      deleteExpense i (deleteExpense i s).2 = (false, (deleteExpense i s).2)) := by
  constructor
  · intro h
    have hrem : s.expenses.filter (fun r => ¬ r.id = i) = s.expenses := by
      rw [List.filter_eq_self]
      intro r hr
      simpa using h r hr
    simp only [decide_not] at hrem
    simp [deleteExpense, hrem]
  · rintro ⟨r, hr, hid⟩
    have hne : (s.expenses.filter (fun x => ¬ x.id = i)).length ≠ s.expenses.length := by
      intro heq
      rw [List.filter_length_eq_length] at heq
      have := heq r hr
      simp [hid] at this
    have hlt : (s.expenses.filter (fun x => ¬ x.id = i)).length < s.expenses.length :=
      Nat.lt_of_le_of_ne (List.length_filter_le _ _) hne
    have hidem : (s.expenses.filter (fun x => ¬ x.id = i)).filter
        (fun x => ¬ x.id = i) = s.expenses.filter (fun x => ¬ x.id = i) := by
      rw [List.filter_eq_self]
      intro a ha
      exact (List.mem_filter.mp ha).2
    simp only [decide_not] at hlt hidem
    refine ⟨by simp [deleteExpense, hlt], rfl, ?_⟩
    simp [deleteExpense, hidem]

/-- Witness for C4: deleting expense "7" from store1 succeeds and empties the
expense table, and deleting it again reports false. -/
theorem deleteExpense_contract_witness :
    (deleteExpense ("7") store1).1 = true ∧
    (deleteExpense ("7") store1).2 =
      { store1 with expenses := store1.expenses.filter (fun r => ¬ r.id = "7") } ∧
    deleteExpense ("7") (deleteExpense ("7") store1).2 =
      (false, (deleteExpense ("7") store1).2) :=
  (deleteExpense_contract store1 ("7")).2 ⟨exp1, by decide, by decide⟩

/-- C6: totalExpense returns the sum of the stored amounts as a JS number, is 0
when no expenses exist, and after a successful createExpense the aggregate has
grown by exactly the created amount, so it always equals the sum over the
current expense collection. -/
theorem totalExpense_sum (s : Store) :
    totalExpense s = JSVal.num ((s.expenses.map ExpenseRow.amount).sum) ∧
    (s.expenses = [] → totalExpense s = JSVal.num 0) ∧
    (∀ now input e s1, addExpense now input s = (Except.ok e, s1) →
      totalExpense s1 =
        JSVal.num ((s.expenses.map ExpenseRow.amount).sum + input.amount)) := by
  refine ⟨rfl, ?_, ?_⟩
  · intro h
    simp [totalExpense, h, jsNumber]
  · intro now input e s1 h
    by_cases h1 : (s.users.filter (fun u => u.id = input.userId)).length = 0
    · simp [addExpense, h1] at h
    · by_cases h2 : input.amount ≤ 0
      · simp [addExpense, h1, h2] at h
      · by_cases h3 : (jsTrim input.description).length < 3
        · simp [addExpense, h1, h2, h3] at h
        · have hs1 : s1 = { s with expenses := s.expenses ++
              [{ id := Nat.repr now, name := input.name, amount := input.amount,
                 description := input.description, user_id := input.userId,
                 created_at := now }] } := by
            simp only [addExpense, if_neg h1, if_neg h2, if_neg h3,
              Prod.mk.injEq] at h
            exact h.2.symm
          rw [hs1]
          simp [totalExpense, jsNumber]

/-- Witness for C6: the empty store totals to the JS number 0. -/
theorem totalExpense_sum_witness : totalExpense emptyStore = JSVal.num 0 :=
  (totalExpense_sum emptyStore).2.1 rfl

/-- C7: expensesByUser returns exactly the stored expense rows whose user_id
equals the argument, newest-first by creation time, with no error and no
user-existence check: an unknown user or a user with no expenses yields the
empty list. -/
theorem expensesByUser_spec (s : Store) (uid : String) :
    (∃ l : List ExpenseRow,
      List.Perm l (s.expenses.filter (fun r => r.user_id = uid)) ∧
      l.Sorted newestFirst ∧
      expensesByUser uid s = l.map rowToExpenseNum) ∧
    (∀ e ∈ expensesByUser uid s, e.userId = uid) ∧
    ((∀ r ∈ s.expenses, r.user_id ≠ uid) → expensesByUser uid s = []) := by
  refine ⟨⟨List.insertionSort newestFirst
      (s.expenses.filter (fun r => r.user_id = uid)),
      List.perm_insertionSort newestFirst _,
      List.sorted_insertionSort newestFirst _, rfl⟩, ?_, ?_⟩
  · intro e he
    rw [expensesByUser, List.mem_map] at he
    obtain ⟨r, hr, hre⟩ := he
    have hr2 : r ∈ s.expenses.filter (fun x => x.user_id = uid) :=
      (List.perm_insertionSort newestFirst _).subset hr
    have := (List.mem_filter.mp hr2).2
    rw [← hre]
    simpa [rowToExpenseNum] using this
  · intro h
    have hfil : s.expenses.filter (fun r => r.user_id = uid) = [] := by
      rw [List.filter_eq_nil_iff]
      intro r hr
      simpa using h r hr
    simp [expensesByUser, hfil]

/-- Witness for C7: a user id absent from store1 yields the empty list. -/
theorem expensesByUser_spec_witness : expensesByUser ("nobody") store1 = [] :=
  (expensesByUser_spec store1 ("nobody")).2.2 (by decide)

/-- Helper: the store after updateExpense always carries the mapped expense
table (the UPDATE ran before the emptiness check), and the user table and the
message list are untouched. -/
theorem updateExpense_store (i : String) (amt : ℚ) (d : String) (s : Store) :
    (updateExpense i amt d s).2 =
      { s with expenses := s.expenses.map (fun r =>
          if r.id = i then { r with amount := amt, description := d } else r) } := by
  simp only [updateExpense]
  split <;> rfl

/-- C5: updateExpense on the unique stored row with the given id returns the
expense with the new amount and description and the old id, name and user
reference; the stored row is rewritten to those values, every other row is kept
as it was, and the user table is untouched. -/
theorem updateExpense_frame (s : Store) (r0 : ExpenseRow) (amt : ℚ) (d : String)
    (hmem : r0 ∈ s.expenses)
    (huniq : ∀ r ∈ s.expenses, r.id = r0.id → r = r0) :
    (updateExpense r0.id amt d s).1 =
      Except.ok { id := r0.id, name := r0.name, amount := JSVal.num amt,
                  description := d, userId := r0.user_id } ∧
    { r0 with amount := amt, description := d } ∈
      (updateExpense r0.id amt d s).2.expenses ∧
    (∀ r ∈ s.expenses, r.id ≠ r0.id → r ∈ (updateExpense r0.id amt d s).2.expenses) ∧
    (∀ x ∈ (updateExpense r0.id amt d s).2.expenses,
        x = { r0 with amount := amt, description := d } ∨ x ∈ s.expenses) ∧
    (updateExpense r0.id amt d s).2.users = s.users := by
  have key : ∀ x ∈ (s.expenses.map (fun r =>
      if r.id = r0.id then { r with amount := amt, description := d } else r)).filter
        (fun r => r.id = r0.id),
      x = { r0 with amount := amt, description := d } := by
    intro x hx
    rw [List.mem_filter] at hx
    obtain ⟨hx1, hx2⟩ := hx
    rw [List.mem_map] at hx1
    obtain ⟨r, hr, hrx⟩ := hx1
    by_cases hid : r.id = r0.id
    · have hrr : r = r0 := huniq r hr hid
      rw [← hrx, hrr, if_pos rfl]
    · rw [← hrx, if_neg hid] at hx2
      simp at hx2
      exact absurd hx2 hid
  have hmem2 : { r0 with amount := amt, description := d } ∈
      (s.expenses.map (fun r =>
        if r.id = r0.id then { r with amount := amt, description := d } else r)).filter
        (fun r => r.id = r0.id) := by
    rw [List.mem_filter]
    refine ⟨?_, by simp⟩
    rw [List.mem_map]
    exact ⟨r0, hmem, by rw [if_pos rfl]⟩
  refine ⟨?_, ?_, ?_, ?_, ?_⟩
  · cases hc : (s.expenses.map (fun r =>
        if r.id = r0.id then { r with amount := amt, description := d } else r)).filter
        (fun r => r.id = r0.id) with
    | nil =>
      rw [hc] at hmem2
      simp at hmem2
    | cons a t =>
      have ha : a = { r0 with amount := amt, description := d } :=
        key a (by rw [hc]; exact List.mem_cons_self a t)
      simp only [updateExpense]
      rw [hc, ha]
      rfl
  · rw [updateExpense_store]
    rw [List.mem_map]
    exact ⟨r0, hmem, by rw [if_pos rfl]⟩
  · intro r hr hne
    rw [updateExpense_store]
    rw [List.mem_map]
    exact ⟨r, hr, by rw [if_neg hne]⟩
  · intro x hx
    rw [updateExpense_store] at hx
    rw [List.mem_map] at hx
    obtain ⟨r, hr, hrx⟩ := hx
    by_cases hid : r.id = r0.id
    · left
      rw [← hrx, huniq r hr hid, if_pos rfl]
    · right
      rw [← hrx, if_neg hid]
      exact hr
  · rw [updateExpense_store]

/-- Witness for C5: updating expense "7" of store1 to amount 200 and
description "new desc" returns the row with the new values and the old id,
name and user reference. -/
theorem updateExpense_frame_witness :
    (updateExpense ("7") 200 ("new desc") store1).1 =
      Except.ok { id := "7", name := "lunch", amount := JSVal.num 200,
                  description := "new desc", userId := "u1" } :=
  (updateExpense_frame store1 exp1 200 ("new desc") (by decide) (by decide)).1

/-- Helper: any stored row reads back through the expenses listing raw and
through the per-user listing up to Float serialization. -/
theorem row_readback (r : ExpenseRow) (st : Store) (hmem : r ∈ st.expenses) :
    rowToExpenseRaw r ∈ expenses st ∧
    serializeExpense (rowToExpenseRaw r) ∈
      (expensesByUser r.user_id st).map serializeExpense := by
  constructor
  · exact List.mem_map.mpr ⟨r, hmem, rfl⟩
  · refine List.mem_map.mpr ⟨rowToExpenseNum r, ?_, rfl⟩
    refine List.mem_map.mpr ⟨r, ?_, rfl⟩
    refine (List.perm_insertionSort newestFirst _).mem_iff.mpr ?_
    exact List.mem_filter.mpr ⟨hmem, by simp⟩

/-- C8: an Expense successfully returned by createExpense reads back from the
resulting store equal in all five fields: field-for-field at the resolver level
via listExpenses, and equal at the serialized API boundary via
listExpensesByUser, where the mapping is field renaming plus the numeric
normalization of the stored amount performed by Float serialization. -/
theorem addExpense_roundtrip (now : ℕ) (input : AddExpenseInput) (s : Store)
    (e : ExpenseOut) (s1 : Store)
    (h : addExpense now input s = (Except.ok e, s1)) :
    e ∈ expenses s1 ∧
    serializeExpense e ∈ (expensesByUser e.userId s1).map serializeExpense := by
  by_cases h1 : (s.users.filter (fun u => u.id = input.userId)).length = 0
  · simp [addExpense, h1] at h
  · by_cases h2 : input.amount ≤ 0
    · simp [addExpense, h1, h2] at h
    · by_cases h3 : (jsTrim input.description).length < 3
      · simp [addExpense, h1, h2, h3] at h
      · simp only [addExpense, if_neg h1, if_neg h2, if_neg h3, Prod.mk.injEq,
          Except.ok.injEq] at h
        obtain ⟨he, hs1⟩ := h
        subst hs1
        subst he
        exact row_readback _ _ (List.mem_append_right _ (List.mem_singleton_self _))

/-- Concrete row inserted by the witness creation call at tick 9. -/
def exp9 : ExpenseRow :=
  { id := "9", name := "tea", amount := 50, description := "drink",
    user_id := "u1", created_at := 9 }

/-- Store after the witness creation call on store1. -/
def store9 : Store :=
  { users := [user1], expenses := [exp1, exp9], messages := [] }

/-- Witness for C8: the expense created at tick 9 for user "u1" on store1 reads
back through both listings. -/
theorem addExpense_roundtrip_witness :
    rowToExpenseRaw exp9 ∈ expenses store9 ∧
    serializeExpense (rowToExpenseRaw exp9) ∈
      (expensesByUser (rowToExpenseRaw exp9).userId store9).map serializeExpense :=
  addExpense_roundtrip 9
    { name := "tea", amount := 50, description := "drink", userId := "u1" }
    store1 (rowToExpenseRaw exp9) store9 (by decide)

/-- Helper: the result of updateExpense is ExpenseNotFound when no row of the
rewritten table carries the id, and otherwise the Number-coerced first such
row. -/
theorem updateExpense_shape (i : String) (amt : ℚ) (d : String) (s : Store) :
    ((s.expenses.map (fun r =>
        if r.id = i then { r with amount := amt, description := d } else r)).filter
        (fun r => r.id = i) = [] ∧
      (updateExpense i amt d s).1 = Except.error Err.ExpenseNotFound) ∨
    (∃ a t, (s.expenses.map (fun r =>
        if r.id = i then { r with amount := amt, description := d } else r)).filter
        (fun r => r.id = i) = a :: t ∧
      (updateExpense i amt d s).1 = Except.ok (rowToExpenseNum a)) := by
  cases hc : (s.expenses.map (fun r =>
      if r.id = i then { r with amount := amt, description := d } else r)).filter
      (fun r => r.id = i) with
  | nil =>
    left
    refine ⟨rfl, ?_⟩
    simp only [updateExpense]
    rw [hc]
  | cons a t =>
    right
    refine ⟨a, t, rfl, ?_⟩
    simp only [updateExpense]
    rw [hc]

/-- Helper: every row of the rewritten table that carries the id holds the new
amount and description. -/
theorem updated_filter_values (s : Store) (i : String) (amt : ℚ) (d : String) :
    ∀ x ∈ (s.expenses.map (fun r =>
        if r.id = i then { r with amount := amt, description := d } else r)).filter
        (fun r => r.id = i),
      x.amount = amt ∧ x.description = d := by
  intro x hx
  rw [List.mem_filter] at hx
  obtain ⟨hx1, hx2⟩ := hx
  rw [List.mem_map] at hx1
  obtain ⟨r, hr, hrx⟩ := hx1
  by_cases hid : r.id = i
  · rw [← hrx, if_pos hid]
    exact ⟨rfl, rfl⟩
  · rw [← hrx, if_neg hid] at hx2
    simp at hx2
    exact absurd hx2 hid

/-- Helper: a stored row carrying the id yields a row of the rewritten table
carrying the id, so the UPDATE's RETURNING set is nonempty. -/
theorem updated_filter_mem (s : Store) (i : String) (amt : ℚ) (d : String)
    {r : ExpenseRow} (hr : r ∈ s.expenses) (hid : r.id = i) :
    (if r.id = i then { r with amount := amt, description := d } else r) ∈
      (s.expenses.map (fun x =>
        if x.id = i then { x with amount := amt, description := d } else x)).filter
        (fun x => x.id = i) := by
  rw [List.mem_filter]
  refine ⟨List.mem_map.mpr ⟨r, hr, rfl⟩, ?_⟩
  rw [if_pos hid]
  simp [hid]

/-- C1 counterexample: store1 holds expense "7"; updating it to amount -5 and
description "x" is not rejected as InvalidAmount or InvalidDescription, and the
store afterwards holds a row whose amount is -5 ≤ 0 and whose trimmed
description is shorter than 3 characters, against invariants (b) and (c). -/
theorem updateExpense_no_revalidation_cex :
    (updateExpense ("7") (-5) ("x") store1).1 ≠ Except.error Err.InvalidAmount ∧
    (updateExpense ("7") (-5) ("x") store1).1 ≠ Except.error Err.InvalidDescription ∧
    (updateExpense ("7") (-5) ("x") store1).2.expenses =
      [{ exp1 with amount := -5, description := "x" }] ∧
    ({ exp1 with amount := -5, description := "x" } : ExpenseRow).amount ≤ 0 ∧
    (jsTrim ({ exp1 with amount := -5, description := "x" } :
      ExpenseRow).description).length < 3 := by
  refine ⟨by decide, by decide, by decide, by decide, by decide⟩

/-- C1 amended: updateExpense re-validates nothing: it never fails with
InvalidAmount or InvalidDescription, and whenever a row with the id exists it
succeeds and returns the new amount and description unchecked, whatever their
values, so an update can store an amount ≤ 0 or a trimmed description shorter
than 3. -/
theorem updateExpense_no_revalidation (s : Store) (i : String) (amt : ℚ)
    (d : String) :
    (∀ er, (updateExpense i amt d s).1 = Except.error er →
      er = Err.ExpenseNotFound) ∧
    ((∃ r ∈ s.expenses, r.id = i) →
      ∃ e, (updateExpense i amt d s).1 = Except.ok e ∧
        e.amount = JSVal.num amt ∧ e.description = d) := by
  rcases updateExpense_shape i amt d s with ⟨hnil, herr⟩ | ⟨a, t, hc, hok⟩
  · constructor
    · intro er h
      rw [herr] at h
      exact (Except.error.inj h).symm
    · rintro ⟨r, hr, hid⟩
      have := updated_filter_mem s i amt d hr hid
      rw [hnil] at this
      simp at this
  · constructor
    · intro er h
      rw [hok] at h
      exact absurd h (by simp)
    · intro _
      refine ⟨rowToExpenseNum a, hok, ?_, ?_⟩
      · have := (updated_filter_values s i amt d a
          (hc ▸ List.mem_cons_self a t)).1
        simp [rowToExpenseNum, jsNumber, this]
      · exact (updated_filter_values s i amt d a
          (hc ▸ List.mem_cons_self a t)).2

/-- Witness for C1's amended claim: the invalid values -5 and "x" are written
and returned unchecked for the existing expense "7" of store1. -/
theorem updateExpense_no_revalidation_witness :
    ∃ e, (updateExpense ("7") (-5) ("x") store1).1 = Except.ok e ∧
      e.amount = JSVal.num (-5) ∧ e.description = "x" :=
  (updateExpense_no_revalidation store1 ("7") (-5) ("x")).2
    ⟨exp1, by decide, by decide⟩

/-- C10: for a stored row the expenses listing and the createExpense result
surface the amount as the raw driver value, while the per-user listing and the
updateExpense result surface its Number(...) coercion; so for the same stored
row, listExpenses returns the raw store value and listExpensesByUser returns
the JS number obtained by coercing it. -/
theorem amount_coercion_split (s : Store) (r : ExpenseRow) (hmem : r ∈ s.expenses)
    (huniq : ∀ x ∈ s.expenses, x.id = r.id → x = r) :
    (∃ e ∈ expenses s, e.id = r.id ∧ e.amount = JSVal.dec r.amount) ∧
    (∀ e ∈ expensesByUser r.user_id s, e.id = r.id →
      e.amount = jsNumber (JSVal.dec r.amount)) ∧
    (∀ now input e s1, addExpense now input s = (Except.ok e, s1) →
      e.amount = JSVal.dec input.amount) ∧
    (∀ amt d e, (updateExpense r.id amt d s).1 = Except.ok e →
      e.amount = jsNumber (JSVal.dec amt)) ∧
    jsNumber (JSVal.dec r.amount) = JSVal.num r.amount := by
  refine ⟨⟨rowToExpenseRaw r, List.mem_map.mpr ⟨r, hmem, rfl⟩, rfl, rfl⟩,
    ?_, ?_, ?_, rfl⟩
  · intro e he hid
    rw [expensesByUser, List.mem_map] at he
    obtain ⟨x, hx, hxe⟩ := he
    have hx2 : x ∈ s.expenses.filter (fun y => y.user_id = r.user_id) :=
      (List.perm_insertionSort newestFirst _).subset hx
    have hxs : x ∈ s.expenses := (List.mem_filter.mp hx2).1
    have hxid : x.id = r.id := by
      rw [← hxe] at hid
      exact hid
    rw [← hxe, huniq x hxs hxid]
    rfl
  · intro now input e s1 h
    by_cases h1 : (s.users.filter (fun u => u.id = input.userId)).length = 0
    · simp [addExpense, h1] at h
    · by_cases h2 : input.amount ≤ 0
      · simp [addExpense, h1, h2] at h
      · by_cases h3 : (jsTrim input.description).length < 3
        · simp [addExpense, h1, h2, h3] at h
        · simp only [addExpense, if_neg h1, if_neg h2, if_neg h3,
            Prod.mk.injEq, Except.ok.injEq] at h
          rw [← h.1]
          rfl
  · intro amt d e h
    rcases updateExpense_shape r.id amt d s with ⟨hnil, herr⟩ | ⟨a, t, hc, hok⟩
    · rw [herr] at h
      exact absurd h (by simp)
    · rw [hok] at h
      have := (updated_filter_values s r.id amt d a
        (hc ▸ List.mem_cons_self a t)).1
      rw [← Except.ok.inj h]
      simp [rowToExpenseNum, jsNumber, this]

/-- Witness for C10 on store1's row "7": the raw listing carries the decimal
value, the per-user listing its coerced JS number. -/
theorem amount_coercion_split_witness :
    (∃ e ∈ expenses store1, e.id = exp1.id ∧ e.amount = JSVal.dec exp1.amount) ∧
    (∀ e ∈ expensesByUser exp1.user_id store1, e.id = exp1.id →
      e.amount = jsNumber (JSVal.dec exp1.amount)) :=
  ⟨(amount_coercion_split store1 exp1 (by decide) (by decide)).1,
   (amount_coercion_split store1 exp1 (by decide) (by decide)).2.1⟩

/-- Helper: with enough fuel, the digit loop behind Nat.repr produces the
reversed decimal digit characters of its argument. -/
theorem toDigitsCore_eq_digits (n : ℕ) :
    ∀ (f : ℕ) (acc : List Char), n ≠ 0 → n < f →
      Nat.toDigitsCore 10 f n acc =
        ((Nat.digits 10 n).map Nat.digitChar).reverse ++ acc := by
  induction n using Nat.strong_induction_on with
  | _ n ih =>
    intro f acc hn hf
    cases f with
    | zero => omega
    | succ f =>
      by_cases hdiv : n / 10 = 0
      · have hdig : Nat.digits 10 n = [n % 10] := by
          rw [Nat.digits_def' (by norm_num : (1:ℕ) < 10) (Nat.pos_of_ne_zero hn),
            hdiv]
          simp
        simp only [Nat.toDigitsCore]
        rw [if_pos hdiv, hdig]
        simp
      · have hlt : n / 10 < n :=
          Nat.div_lt_self (Nat.pos_of_ne_zero hn) (by norm_num)
        have hf2 : n / 10 < f := by omega
        have ihh := ih (n / 10) hlt f (Nat.digitChar (n % 10) :: acc) hdiv hf2
        have hdig : Nat.digits 10 n = n % 10 :: Nat.digits 10 (n / 10) :=
          Nat.digits_def' (by norm_num) (Nat.pos_of_ne_zero hn)
        simp only [Nat.toDigitsCore]
        rw [if_neg hdiv, ihh, hdig]
        simp

/-- Helper: a decimal digit character below base 10 determines the digit. -/
theorem digitChar_inj_lt (a b : ℕ) (ha : a < 10) (hb : b < 10)
    (h : Nat.digitChar a = Nat.digitChar b) : a = b := by
  interval_cases a <;> interval_cases b <;> revert h <;> decide

/-- Helper: mapping digitChar over lists of decimal digits is injective. -/
theorem map_digitChar_inj :
    ∀ (l1 l2 : List ℕ), (∀ x ∈ l1, x < 10) → (∀ x ∈ l2, x < 10) →
      l1.map Nat.digitChar = l2.map Nat.digitChar → l1 = l2
  | [], [], _, _, _ => rfl
  | [], _ :: _, _, _, h => by simp at h
  | _ :: _, [], _, _, h => by simp at h
  | a :: t1, b :: t2, h1, h2, h => by
    simp only [List.map_cons, List.cons.injEq] at h
    have hab := digitChar_inj_lt a b (h1 a (List.mem_cons_self a t1))
      (h2 b (List.mem_cons_self b t2)) h.1
    have ht := map_digitChar_inj t1 t2
      (fun x hx => h1 x (List.mem_cons_of_mem a hx))
      (fun x hx => h2 x (List.mem_cons_of_mem b hx)) h.2
    rw [hab, ht]

/-- Helper: Nat.toDigits at base 10 of a nonzero number is its reversed list
of decimal digit characters. -/
theorem toDigits_eq_digits (n : ℕ) (hn : n ≠ 0) :
    Nat.toDigits 10 n = ((Nat.digits 10 n).map Nat.digitChar).reverse := by
  have := toDigitsCore_eq_digits n (n + 1) [] hn (Nat.lt_succ_self n)
  simpa [Nat.toDigits] using this

/-- Helper: the decimal string of a wall-clock tick determines the tick, that
is, Nat.repr is injective. -/
theorem natRepr_injective : Function.Injective Nat.repr := by
  intro m n h
  rw [Nat.repr, Nat.repr, List.asString_inj] at h
  have zero_case : ∀ k : ℕ, k ≠ 0 → Nat.toDigits 10 k ≠ ['0'] := by
    intro k hk hcon
    rw [toDigits_eq_digits k hk] at hcon
    have hmap : (Nat.digits 10 k).map Nat.digitChar = ['0'] := by
      have := congrArg List.reverse hcon
      simpa using this
    cases hd : Nat.digits 10 k with
    | nil =>
      rw [hd] at hmap
      simp at hmap
    | cons d l =>
      rw [hd] at hmap
      cases l with
      | nil =>
        simp only [List.map_cons, List.map_nil, List.cons.injEq, and_true] at hmap
        have hdlt : d < 10 := Nat.digits_lt_base (by norm_num)
          (hd ▸ List.mem_cons_self d [])
        have hd0 : d = 0 := digitChar_inj_lt d 0 hdlt (by norm_num) hmap
        have hofd := Nat.ofDigits_digits 10 k
        rw [hd, hd0] at hofd
        simp [Nat.ofDigits] at hofd
        exact hk hofd.symm
      | cons d2 l2 =>
        simp at hmap
  by_cases hm : m = 0
  · by_cases hn0 : n = 0
    · rw [hm, hn0]
    · exfalso
      rw [hm] at h
      exact zero_case n hn0 h.symm
  · by_cases hn0 : n = 0
    · exfalso
      rw [hn0] at h
      exact zero_case m hm h
    · rw [toDigits_eq_digits m hm, toDigits_eq_digits n hn0] at h
      have hmap : (Nat.digits 10 m).map Nat.digitChar =
          (Nat.digits 10 n).map Nat.digitChar := by
        have := congrArg List.reverse h
        simpa using this
      have hdig := map_digitChar_inj (Nat.digits 10 m) (Nat.digits 10 n)
        (fun x hx => Nat.digits_lt_base (by norm_num) hx)
        (fun x hx => Nat.digits_lt_base (by norm_num) hx) hmap
      exact Nat.digits_inj_iff.mp hdig

/-- Helper: a successful addExpense returns the id generated from the observed
tick. -/
theorem addExpense_ok_id (now : ℕ) (input : AddExpenseInput) (s : Store)
    (e : ExpenseOut) (s1 : Store)
    (h : addExpense now input s = (Except.ok e, s1)) : e.id = Nat.repr now := by
  by_cases h1 : (s.users.filter (fun u => u.id = input.userId)).length = 0
  · simp [addExpense, h1] at h
  · by_cases h2 : input.amount ≤ 0
    · simp [addExpense, h1, h2] at h
    · by_cases h3 : (jsTrim input.description).length < 3
      · simp [addExpense, h1, h2, h3] at h
      · simp only [addExpense, if_neg h1, if_neg h2, if_neg h3, Prod.mk.injEq,
          Except.ok.injEq] at h
        rw [← h.1]
        rfl

/-- C9 counterexample: two addMessage calls that observe the same Date.now()
tick generate the same id for two distinct messages, so the message collection
ends up holding two rows with one id. -/
theorem wallclock_id_collision_cex :
    ((addMessage 5 ("a") emptyStore).1).id =
      ((addMessage 5 ("b") (addMessage 5 ("a") emptyStore).2).1).id ∧
    (addMessage 5 ("a") emptyStore).1 ≠
      (addMessage 5 ("b") (addMessage 5 ("a") emptyStore).2).1 ∧
    ((addMessage 5 ("b") (addMessage 5 ("a") emptyStore).2).2).messages.map
      Message.id = [Nat.repr 5, Nat.repr 5] :=
  ⟨rfl, by decide, rfl⟩

/-- C9 amended: every generated id is the decimal representation of the
observed wall-clock tick, so two create calls in the same collection receive
distinct ids whenever they observe distinct ticks; uniqueness holds only under
that condition, not for calls sharing a tick. -/
theorem wallclock_ids_distinct (n1 n2 : ℕ) (h : n1 ≠ n2) :
    (∀ t1 t2 s1 s2, (addMessage n1 t1 s1).1.id ≠ (addMessage n2 t2 s2).1.id) ∧
    (∀ m1 m2 s1 s2, (addUser n1 m1 s1).1.id ≠ (addUser n2 m2 s2).1.id) ∧
    (∀ i1 i2 s1 s2 e1 e2 s3 s4,
      addExpense n1 i1 s1 = (Except.ok e1, s3) →
      addExpense n2 i2 s2 = (Except.ok e2, s4) → e1.id ≠ e2.id) := by
  have hrepr : Nat.repr n1 ≠ Nat.repr n2 := fun hh => h (natRepr_injective hh)
  refine ⟨fun t1 t2 s1 s2 => hrepr, fun m1 m2 s1 s2 => hrepr, ?_⟩
  intro i1 i2 s1 s2 e1 e2 s3 s4 h1 h2
  rw [addExpense_ok_id n1 i1 s1 e1 s3 h1, addExpense_ok_id n2 i2 s2 e2 s4 h2]
  exact hrepr

/-- Witness for C9's amended claim: messages created at the distinct ticks 1
and 2 carry distinct ids. -/
theorem wallclock_ids_distinct_witness :
    (addMessage 1 ("a") emptyStore).1.id ≠ (addMessage 2 ("b") emptyStore).1.id :=
  (wallclock_ids_distinct 1 2 (by decide)).1 ("a") ("b") emptyStore emptyStore

end FamilyExpense
